import Mathlib

/-!
# Verification of the blackbox anchoring/verification core (src/blackbox.go)

Shallow embedding of the Go source. Bytes are `List Nat` (each element a byte
value); machine 32-bit words are `Nat` reduced `% 2^32` where overflow matters.
External collaborators are embedded at their boundary:

* `crypto/sha256` (used by `getFileHash`) is implemented in full from the
  FIPS 180-4 algorithm, as `sha256`; known test vectors are checked below.
* `ed25519` `Sign`/`Verify` are abstract function parameters (`sign`,
  `verify`); the sign/verify inverse law the spec delegates to the library is
  taken as a hypothesis where a round-trip theorem needs it.
* The Factom ledger client appears as explicit inputs: fetched history /
  fetched entry / file reads arrive as `Except` values (fail-fast on
  `.error`), and the two-phase commit/reveal submission outcomes arrive as a
  `NetBehavior` record, with the resulting ledger-state change modelled from
  the spec (a successful commit+reveal makes the chain exist).

Go's `(value, error)` returns are embedded as pairs with `Option String` for
the error slot; a Go runtime panic (slice index out of range) is a distinct
`GoPanic.panicked` outcome.
-/

namespace Blackbox

/-! ## SHA-256 (embedding of `crypto/sha256`, FIPS 180-4) -/

/-- Right-rotate a 32-bit word (represented as `Nat < 2^32`). -/
def rotr32 (n x : Nat) : Nat :=
  (x / 2 ^ n + x % 2 ^ n * 2 ^ (32 - n)) % 2 ^ 32

/-- SHA-256 `Ch` function. -/
def ch32 (x y z : Nat) : Nat :=
  (x &&& y) ^^^ ((x ^^^ 0xFFFFFFFF) &&& z)

/-- SHA-256 `Maj` function. -/
def maj32 (x y z : Nat) : Nat :=
  (x &&& y) ^^^ (x &&& z) ^^^ (y &&& z)

/-- SHA-256 big Σ0. -/
def bigSigma0 (x : Nat) : Nat := rotr32 2 x ^^^ rotr32 13 x ^^^ rotr32 22 x

/-- SHA-256 big Σ1. -/
def bigSigma1 (x : Nat) : Nat := rotr32 6 x ^^^ rotr32 11 x ^^^ rotr32 25 x

/-- SHA-256 small σ0. -/
def smallSigma0 (x : Nat) : Nat := rotr32 7 x ^^^ rotr32 18 x ^^^ x / 2 ^ 3

/-- SHA-256 small σ1. -/
def smallSigma1 (x : Nat) : Nat := rotr32 17 x ^^^ rotr32 19 x ^^^ x / 2 ^ 10

/-- The 64 SHA-256 round constants (decimal). -/
def sha256K : List Nat :=
  [1116352408, 1899447441, 3049323471, 3921009573, 961987163,
   1508970993, 2453635748, 2870763221, 3624381080, 310598401,
   607225278, 1426881987, 1925078388, 2162078206, 2614888103,
   3248222580, 3835390401, 4022224774, 264347078, 604807628,
   770255983, 1249150122, 1555081692, 1996064986, 2554220882,
   2821834349, 2952996808, 3210313671, 3336571891, 3584528711,
   113926993, 338241895, 666307205, 773529912, 1294757372,
   1396182291, 1695183700, 1986661051, 2177026350, 2456956037,
   2730485921, 2820302411, 3259730800, 3345764771, 3516065817,
   3600352804, 4094571909, 275423344, 430227734, 506948616,
   659060556, 883997877, 958139571, 1322822218, 1537002063,
   1747873779, 1955562222, 2024104815, 2227730452, 2361852424,
   2428436474, 2756734187, 3204031479, 3329325298]

/-- The eight 32-bit words of a SHA-256 working state. -/
structure Hash8 where
  a : Nat
  b : Nat
  c : Nat
  d : Nat
  e : Nat
  f : Nat
  g : Nat
  h : Nat
  deriving Repr, DecidableEq

/-- SHA-256 initial hash value (decimal). -/
def sha256Init : Hash8 :=
  ⟨1779033703, 3144134277, 1013904242, 2773480762,
   1359893119, 2600822924, 528734635, 1541459225⟩

/-- Assemble one big-endian 32-bit word from four bytes. -/
def wordOfBytes (bs : List Nat) : Nat :=
  bs.getD 0 0 * 2 ^ 24 + bs.getD 1 0 * 2 ^ 16 + bs.getD 2 0 * 2 ^ 8 + bs.getD 3 0

/-- Emit a 32-bit word as four big-endian bytes. -/
def bytesOfWord (w : Nat) : List Nat :=
  [w / 2 ^ 24 % 256, w / 2 ^ 16 % 256, w / 2 ^ 8 % 256, w % 256]

/-- Extend a 16-word message schedule by `n` further words. -/
def extendSchedule : List Nat → Nat → List Nat
  | ws, 0 => ws
  | ws, n + 1 =>
    let t := (smallSigma1 (ws.getD (ws.length - 2) 0) + ws.getD (ws.length - 7) 0 +
              smallSigma0 (ws.getD (ws.length - 15) 0) + ws.getD (ws.length - 16) 0) % 2 ^ 32
    extendSchedule (ws ++ [t]) n

/-- The 64-word message schedule of one 64-byte block. -/
def msgSchedule (blockBytes : List Nat) : List Nat :=
  extendSchedule ((List.range 16).map fun j => wordOfBytes ((blockBytes.drop (4 * j)).take 4)) 48

/-- One SHA-256 compression round. -/
def compressStep (s : Hash8) (kw : Nat × Nat) : Hash8 :=
  let t1 := (s.h + bigSigma1 s.e + ch32 s.e s.f s.g + kw.1 + kw.2) % 2 ^ 32
  let t2 := (bigSigma0 s.a + maj32 s.a s.b s.c) % 2 ^ 32
  ⟨(t1 + t2) % 2 ^ 32, s.a, s.b, s.c, (s.d + t1) % 2 ^ 32, s.e, s.f, s.g⟩

/-- Compress one 64-byte block into the running hash state. -/
def compressBlock (s : Hash8) (blockBytes : List Nat) : Hash8 :=
  let fin := (sha256K.zip (msgSchedule blockBytes)).foldl compressStep s
  ⟨(s.a + fin.a) % 2 ^ 32, (s.b + fin.b) % 2 ^ 32, (s.c + fin.c) % 2 ^ 32,
   (s.d + fin.d) % 2 ^ 32, (s.e + fin.e) % 2 ^ 32, (s.f + fin.f) % 2 ^ 32,
   (s.g + fin.g) % 2 ^ 32, (s.h + fin.h) % 2 ^ 32⟩

/-- Split a byte string into 64-byte blocks (`fuel` bounds the recursion;
each step consumes at least one byte, so `l.length` fuel always suffices). -/
def toBlocksAux : Nat → List Nat → List (List Nat)
  | _, [] => []
  | 0, _ :: _ => []
  | fuel + 1, x :: xs => (x :: xs.take 63) :: toBlocksAux fuel (xs.drop 63)

/-- Split a byte string into 64-byte blocks. -/
def toBlocks (l : List Nat) : List (List Nat) :=
  toBlocksAux l.length l

/-- SHA-256 padding for a message of `len` bytes: `0x80`, zeros to 56 mod 64,
then the bit length as eight big-endian bytes. -/
def sha256Padding (len : Nat) : List Nat :=
  0x80 :: List.replicate ((64 + 55 - len % 64) % 64) 0 ++
    [8 * len / 2 ^ 56 % 256, 8 * len / 2 ^ 48 % 256, 8 * len / 2 ^ 40 % 256,
     8 * len / 2 ^ 32 % 256, 8 * len / 2 ^ 24 % 256, 8 * len / 2 ^ 16 % 256,
     8 * len / 2 ^ 8 % 256, 8 * len % 256]

/-- The SHA-256 digest (32 bytes) of a byte string. Embeds the
`crypto/sha256` call in `getFileHash`. -/
def sha256 (msg : List Nat) : List Nat :=
  let s := (toBlocks (msg ++ sha256Padding msg.length)).foldl compressBlock sha256Init
  bytesOfWord s.a ++ bytesOfWord s.b ++ bytesOfWord s.c ++ bytesOfWord s.d ++
    bytesOfWord s.e ++ bytesOfWord s.f ++ bytesOfWord s.g ++ bytesOfWord s.h

/-- Sanity check against the FIPS 180-4 test vector for the empty message. -/
theorem sha256_empty_vector :
    sha256 [] =
      [0xe3, 0xb0, 0xc4, 0x42, 0x98, 0xfc, 0x1c, 0x14, 0x9a, 0xfb, 0xf4, 0xc8,
       0x99, 0x6f, 0xb9, 0x24, 0x27, 0xae, 0x41, 0xe4, 0x64, 0x9b, 0x93, 0x4c,
       0xa4, 0x95, 0x99, 0x1b, 0x78, 0x52, 0xb8, 0x55] := by decide

/-- Sanity check against the FIPS 180-4 test vector for `"abc"`. -/
theorem sha256_abc_vector :
    sha256 [0x61, 0x62, 0x63] =
      [0xba, 0x78, 0x16, 0xbf, 0x8f, 0x01, 0xcf, 0xea, 0x41, 0x41, 0x40, 0xde,
       0x5d, 0xae, 0x22, 0x23, 0xb0, 0x03, 0x61, 0xa3, 0x96, 0x17, 0x7a, 0x9c,
       0xb4, 0x10, 0xff, 0x61, 0xf2, 0x00, 0x15, 0xad] := by decide

set_option maxRecDepth 4000 in
/-- Sanity check of the multi-block path: the digest of the 200-byte message
`0x00 0x01 … 0xC7` (four blocks after padding), matching the reference
implementation. -/
theorem sha256_multiblock_vector :
    sha256 (List.range 200) =
      [25, 1, 218, 28, 159, 105, 155, 72, 246, 178, 99, 110, 101, 203, 247, 58,
       191, 153, 208, 68, 30, 246, 127, 92, 84, 10, 66, 247, 5, 29, 236, 111] := by
  decide

/-! ## Data model -/

/-- A ledger entry (`factom.Entry`): chain identifier, external IDs
(structured metadata), and content payload. -/
structure Entry where
  chainID : String
  extIDs : List (List Nat)
  content : List Nat
  deriving Repr, DecidableEq

/-- Outcome of a Go computation that may hit a runtime panic
(slice index out of range). -/
inductive GoPanic (α : Type) where
  | ok (val : α)
  | panicked
  deriving Repr, DecidableEq

/-- Embeds `var signature [64]byte; copy(signature[:], src)` from
`VerifyData` and `checkFileIntegrity`: Go's `copy` fills at most 64 bytes
from `src`, leaving the rest zero — so long inputs are truncated at 64 and
short ones are zero-padded to 64. -/
def copyInto64 (src : List Nat) : List Nat :=
  src.take 64 ++ List.replicate (64 - src.length) 0

/-- An ed25519-style verifier: public key, message, 64-byte signature. The
real `ed.Verify` is external; every theorem quantifies over it. -/
abbrev VerifyFn := List Nat → List Nat → List Nat → Bool

/-! ## getFileHash -/

/-- Embeds `Vehicle.getFileHash`: the file read arrives as an `Except`
(`ioutil.ReadFile`'s result); a read error is returned as `(nil, err)`,
otherwise the SHA-256 digest of the file bytes as `(hash, nil)`. -/
def getFileHash (readRes : Except String (List Nat)) : Option (List Nat) × Option String :=
  match readRes with
  | .error e => (none, some e)
  | .ok file => (some (sha256 file), none)

/-! ## VerifyData (full-scan verifier) -/

/-- Embeds the scan loop of `Vehicle.VerifyData` (src/blackbox.go:273-293):
skip entries without exactly 2 ExtIDs; skip entries whose embedded public
key (`ExtIDs[1]`) differs from the owner's; skip entries whose signature
(`ExtIDs[0]`, copied into a 64-byte array) does not verify over the entry's
content under the owner's key; return `true` at the first entry whose
content equals the local hash. -/
def verifyScan (verify : VerifyFn) (ownerPub localHash : List Nat) : List Entry → Bool
  | [] => false
  | entry :: rest =>
    if entry.extIDs.length ≠ 2 then
      verifyScan verify ownerPub localHash rest
    else if entry.extIDs.getD 1 [] ≠ ownerPub then
      verifyScan verify ownerPub localHash rest
    else if verify ownerPub entry.content (copyInto64 (entry.extIDs.getD 0 [])) = false then
      verifyScan verify ownerPub localHash rest
    else if entry.content = localHash then
      true
    else
      verifyScan verify ownerPub localHash rest

/-- The record predicate the scan loop of `VerifyData` accepts: exactly two
metadata fields, embedded public key equal to the owner's, signature
(zero-padded/truncated to 64 bytes) verifying over the content under the
owner's key, and content equal to the local hash. -/
def goodRecord (verify : VerifyFn) (ownerPub localHash : List Nat) (entry : Entry) : Prop :=
  entry.extIDs.length = 2 ∧ entry.extIDs.getD 1 [] = ownerPub ∧
    verify ownerPub entry.content (copyInto64 (entry.extIDs.getD 0 [])) = true ∧
    entry.content = localHash

instance (verify : VerifyFn) (ownerPub localHash : List Nat) :
    DecidablePred (goodRecord verify ownerPub localHash) := fun entry => by
  unfold goodRecord; infer_instance

/-- Embeds `Vehicle.VerifyData`: the fetched chain history and the local
file read arrive as `Except` values; either failure is surfaced as
`(false, err)`; otherwise the result is the scan over the history with the
local file's SHA-256 hash. -/
def VerifyData (verify : VerifyFn) (ownerPub : List Nat)
    (entriesRes : Except String (List Entry)) (readRes : Except String (List Nat)) :
    Bool × Option String :=
  match entriesRes with
  | .error e => (false, some e)
  | .ok entries =>
    match getFileHash readRes with
    | (_, some e) => (false, some e)
    | (localHash, none) => (verifyScan verify ownerPub (localHash.getD []) entries, none)

/-! ## checkFileIntegrity (point-lookup verifier) -/

/-- Embeds `Vehicle.checkFileIntegrity`: hash the local file (fail-fast),
fetch the entry (fail-fast), then read `entry.ExtIDs[0]` unconditionally —
a Go panic when the metadata list is empty — copy it into a 64-byte
signature array, verify it over the entry's own content under the owner's
key, and compare the on-disk hash with the entry content. No metadata-shape
or embedded-public-key check is performed. -/
def checkFileIntegrity (verify : VerifyFn) (ownerPub : List Nat)
    (readRes : Except String (List Nat)) (entryRes : Except String Entry) :
    GoPanic (Bool × Option String) :=
  match getFileHash readRes with
  | (_, some e) => .ok (false, some e)
  | (onDiskHash, none) =>
    match entryRes with
    | .error e => .ok (false, some e)
    | .ok entry =>
      match entry.extIDs with
      | [] => .panicked
      | sigField :: _ =>
        let onChainHash := entry.content
        let signature := copyInto64 sigField
        let validSig := verify ownerPub onChainHash signature
        if validSig = false ∨ onDiskHash.getD [] ≠ onChainHash then .ok (false, none)
        else .ok (true, none)

/-! ## Registration and anchoring -/

/-- Outcomes of the two-phase ledger submission (commit then reveal), as
seen by the caller: each phase either fails with an error or returns a
transaction identifier. Modelled from the spec at the external ledger
boundary (§6). -/
structure NetBehavior where
  commit : Except String String
  reveal : Except String String

/-- Modelled from the spec: ledger state visible to the code — which chain
identifiers exist (`ChainExists`), and how many chains have been created
(a successful commit+reveal makes the chain exist and creates exactly one
chain; spec §4.2, §6). -/
structure ChainState where
  chains : List String
  createdCount : Nat
  deriving Repr, DecidableEq

/-- Embeds the shared body of `Person.Register` and `Vehicle.Register`:
if the chain already exists, return `("", nil)` untouched; otherwise commit
then reveal, surfacing either phase's error unmodified with an empty
transaction ID, and on success return the commit's transaction ID with the
chain now existing. -/
def registerChain (net : NetBehavior) (st : ChainState) (chainID : String) :
    (String × Option String) × ChainState :=
  if chainID ∈ st.chains then (("", none), st)
  else
    match net.commit with
    | .error e => (("", some e), st)
    | .ok txID =>
      match net.reveal with
      | .error e => (("", some e), st)
      | .ok _ => ((txID, none), ⟨chainID :: st.chains, st.createdCount + 1⟩)

/-- A person: entry-credit key pair's public bytes and the derived identity
chain. `constructChainID` (the ledger's chain-ID hash) is external, passed
in as `chainIdOf`. -/
structure Person where
  pubBytes : List Nat
  chainID : String
  deriving Repr, DecidableEq

/-- Embeds `NewPerson`: chain name is `["Driver Identity Chain", pubBytes]`. -/
def NewPerson (chainIdOf : List (List Nat) → String) (pubBytes : List Nat) : Person :=
  { pubBytes := pubBytes
    chainID := chainIdOf [("Driver Identity Chain".data.map Char.toNat), pubBytes] }

/-- Embeds `Person.Register` (src/blackbox.go:72-87). -/
def Person.Register (p : Person) (net : NetBehavior) (st : ChainState) :
    (String × Option String) × ChainState :=
  registerChain net st p.chainID

/-- A vehicle: VIN and the derived identity chain. -/
structure Vehicle where
  vin : String
  chainID : String
  deriving Repr, DecidableEq

/-- Embeds `NewVehicle`: `nil` (here `none`) unless the VIN has exactly 17
characters; chain name is `["Vehicle Identity Chain", vin]`. -/
def NewVehicle (chainIdOf : List (List Nat) → String) (vin : String) : Option Vehicle :=
  if vin.length ≠ 17 then none
  else some { vin := vin
              chainID := chainIdOf [("Vehicle Identity Chain".data.map Char.toNat),
                                    (vin.data.map Char.toNat)] }

/-- Embeds `Vehicle.Register` (src/blackbox.go:125-140). -/
def Vehicle.Register (v : Vehicle) (net : NetBehavior) (st : ChainState) :
    (String × Option String) × ChainState :=
  registerChain net st v.chainID

/-- The entry `secureHashOnChain` builds: `ExtIDs = [signature, pubBytes]`,
`Content = hash`, on the vehicle's chain. `ed.Sign` with the owner's secret
key is external, passed in as `sign`. -/
def anchorEntry (sign : List Nat → List Nat) (pubBytes : List Nat) (chainID : String)
    (hash : List Nat) : Entry :=
  { chainID := chainID, extIDs := [sign hash, pubBytes], content := hash }

/-- Embeds `Vehicle.secureHashOnChain` (src/blackbox.go:344-361): build the
signed entry, commit then reveal; either phase's error is returned
unmodified with an empty transaction ID. Returns the `(txID, err)` pair and
the entry submitted to the ledger. -/
def secureHashOnChain (sign : List Nat → List Nat) (pubBytes : List Nat) (chainID : String)
    (net : NetBehavior) (hash : List Nat) : (String × Option String) × Entry :=
  let entry := anchorEntry sign pubBytes chainID hash
  match net.commit with
  | .error e => (("", some e), entry)
  | .ok txID =>
    match net.reveal with
    | .error e => (("", some e), entry)
    | .ok _ => ((txID, none), entry)

/-! ## Helper lemmas -/

/-- Unfolding the scan one step at a cons cell. -/
lemma verifyScan_cons (verify : VerifyFn) (ownerPub localHash : List Nat)
    (entry : Entry) (rest : List Entry) :
    verifyScan verify ownerPub localHash (entry :: rest) =
      if entry.extIDs.length ≠ 2 then
        verifyScan verify ownerPub localHash rest
      else if entry.extIDs.getD 1 [] ≠ ownerPub then
        verifyScan verify ownerPub localHash rest
      else if verify ownerPub entry.content (copyInto64 (entry.extIDs.getD 0 [])) = false then
        verifyScan verify ownerPub localHash rest
      else if entry.content = localHash then
        true
      else
        verifyScan verify ownerPub localHash rest := rfl

/-- A record accepted by the scan predicate makes the scan stop with `true`. -/
lemma verifyScan_cons_of_good {verify : VerifyFn} {ownerPub localHash : List Nat}
    {entry : Entry} (rest : List Entry)
    (hg : goodRecord verify ownerPub localHash entry) :
    verifyScan verify ownerPub localHash (entry :: rest) = true := by
  obtain ⟨h1, h2, h3, h4⟩ := hg
  rw [verifyScan_cons, if_neg (not_not_intro h1), if_neg (not_not_intro h2),
    if_neg (by rw [h3]; decide), if_pos h4]

/-- A record the scan predicate rejects is skipped: the scan continues on
the rest of the history. -/
lemma verifyScan_cons_of_not_good {verify : VerifyFn} {ownerPub localHash : List Nat}
    {entry : Entry} (rest : List Entry)
    (hng : ¬ goodRecord verify ownerPub localHash entry) :
    verifyScan verify ownerPub localHash (entry :: rest) =
      verifyScan verify ownerPub localHash rest := by
  rw [verifyScan_cons]
  split_ifs with c1 c2 c3 c4
  · rfl
  · rfl
  · rfl
  · exact absurd ⟨not_not.mp c1, not_not.mp c2, eq_true_of_ne_false c3, c4⟩ hng
  · rfl

/-- The scan returns `true` exactly when the history holds an accepted record. -/
lemma verifyScan_eq_true_iff (verify : VerifyFn) (ownerPub localHash : List Nat) :
    ∀ entries : List Entry,
      verifyScan verify ownerPub localHash entries = true ↔
        ∃ e ∈ entries, goodRecord verify ownerPub localHash e := by
  intro entries
  induction entries with
  | nil => simp [verifyScan]
  | cons e es ih =>
    by_cases hg : goodRecord verify ownerPub localHash e
    · simp only [verifyScan_cons_of_good es hg, true_iff]
      exact ⟨e, List.mem_cons_self e es, hg⟩
    · rw [verifyScan_cons_of_not_good es hg, ih]
      constructor
      · rintro ⟨x, hx, hgx⟩
        exact ⟨x, List.mem_cons_of_mem e hx, hgx⟩
      · rintro ⟨x, hx, hgx⟩
        rcases List.mem_cons.mp hx with rfl | hx
        · exact absurd hgx hg
        · exact ⟨x, hx, hgx⟩

/-- The scan returns `false` exactly when no record in the history is accepted. -/
lemma verifyScan_eq_false_iff (verify : VerifyFn) (ownerPub localHash : List Nat)
    (entries : List Entry) :
    verifyScan verify ownerPub localHash entries = false ↔
      ∀ e ∈ entries, ¬ goodRecord verify ownerPub localHash e := by
  rw [← Bool.not_eq_true, verifyScan_eq_true_iff]
  push_neg
  rfl

/-- A rejected record anywhere in the history leaves the scan's result
unchanged. -/
lemma verifyScan_skip_middle {verify : VerifyFn} {ownerPub localHash : List Nat}
    {r : Entry} (hng : ¬ goodRecord verify ownerPub localHash r) :
    ∀ pre post : List Entry,
      verifyScan verify ownerPub localHash (pre ++ r :: post) =
        verifyScan verify ownerPub localHash (pre ++ post) := by
  intro pre post
  induction pre with
  | nil => exact verifyScan_cons_of_not_good post hng
  | cons e pre ih =>
    by_cases hg : goodRecord verify ownerPub localHash e
    · rw [List.cons_append, List.cons_append, verifyScan_cons_of_good _ hg,
        verifyScan_cons_of_good _ hg]
    · rw [List.cons_append, List.cons_append, verifyScan_cons_of_not_good _ hg,
        verifyScan_cons_of_not_good _ hg, ih]

/-- On successful history fetch and file read, `VerifyData` is the scan with
the file's SHA-256 hash, and no error. -/
lemma VerifyData_ok_ok (verify : VerifyFn) (ownerPub : List Nat)
    (entries : List Entry) (fileBytes : List Nat) :
    VerifyData verify ownerPub (.ok entries) (.ok fileBytes) =
      (verifyScan verify ownerPub (sha256 fileBytes) entries, none) := by
  simp [VerifyData, getFileHash]

/-- `copyInto64` always yields 64 bytes. -/
lemma copyInto64_length (src : List Nat) : (copyInto64 src).length = 64 := by
  simp [copyInto64]
  omega

/-- A 64-byte signature passes through `copyInto64` unchanged. -/
lemma copyInto64_of_length_eq {src : List Nat} (hl : src.length = 64) :
    copyInto64 src = src := by
  simp [copyInto64, hl, List.take_of_length_le (le_of_eq hl)]

/-- `secureHashOnChain` submits the anchor entry regardless of the
submission outcome. -/
lemma secureHashOnChain_snd (sign : List Nat → List Nat) (pubBytes : List Nat)
    (chainID : String) (net : NetBehavior) (hash : List Nat) :
    (secureHashOnChain sign pubBytes chainID net hash).2 =
      anchorEntry sign pubBytes chainID hash := by
  unfold secureHashOnChain
  rcases net.commit with e | tx
  · rfl
  · rcases net.reveal with e | rtx <;> rfl

/-! ## Claim theorems -/

/-- C1: For every chain history and every local file, the full-scan verifier
`VerifyData` returns `(true, nil)` exactly when some record in the history
has exactly two metadata fields, an embedded public key equal to the owner's
public key, a signature that verifies over the record's content under the
owner's key, and content byte-for-byte equal to the local file's
fingerprint; if the whole history is exhausted with no such record it
returns `(false, nil)` with no error. -/
theorem VerifyData_full_scan_characterization (verify : VerifyFn) (ownerPub : List Nat)
    (entries : List Entry) (fileBytes : List Nat) :
    (VerifyData verify ownerPub (.ok entries) (.ok fileBytes) = (true, none) ↔
       ∃ e ∈ entries, goodRecord verify ownerPub (sha256 fileBytes) e)
    ∧ (VerifyData verify ownerPub (.ok entries) (.ok fileBytes) = (false, none) ↔
       ∀ e ∈ entries, ¬ goodRecord verify ownerPub (sha256 fileBytes) e) := by
  rw [VerifyData_ok_ok]
  constructor
  · rw [Prod.mk.injEq]
    simp only [and_true]
    exact verifyScan_eq_true_iff verify ownerPub (sha256 fileBytes) entries
  · rw [Prod.mk.injEq]
    simp only [and_true]
    exact verifyScan_eq_false_iff verify ownerPub (sha256 fileBytes) entries

/-- C8: For every readable file, `getFileHash` returns the 32-byte SHA-256
digest of the file's bytes (a pure function of the contents, hence
deterministic), and a storage read failure is returned as `(nil, error)`. -/
theorem getFileHash_sha256_digest (fileBytes : List Nat) (e : String) :
    getFileHash (.ok fileBytes) = (some (sha256 fileBytes), none)
    ∧ (sha256 fileBytes).length = 32
    ∧ getFileHash (.error e) = (none, some e) := by
  refine ⟨rfl, ?_, rfl⟩
  simp [sha256, bytesOfWord]

/-- C10: `checkFileIntegrity` reads the fetched record's first metadata
field unconditionally: a record with an empty metadata list panics
(out-of-bounds access) rather than returning `(false, nil)`, while any
record with at least one metadata field is handled without panic by the
ordinary signature/hash comparison. -/
theorem checkFileIntegrity_empty_extids_panic (verify : VerifyFn)
    (ownerPub fileBytes content sigField : List Nat) (cid : String)
    (restIDs : List (List Nat)) :
    checkFileIntegrity verify ownerPub (.ok fileBytes)
        (.ok ⟨cid, [], content⟩) = .panicked
    ∧ checkFileIntegrity verify ownerPub (.ok fileBytes)
        (.ok ⟨cid, sigField :: restIDs, content⟩)
      = .ok (if verify ownerPub content (copyInto64 sigField) = false ∨ sha256 fileBytes ≠ content
             then (false, none) else (true, none)) := by
  constructor
  · rfl
  · simp only [checkFileIntegrity, getFileHash, Option.getD_some]
    split_ifs with h
    · rfl
    · rfl

/-- C4 counterexample: `checkFileIntegrity` does not perform the full scan's
metadata-shape and embedded-public-key checks — a fetched record with three
metadata fields whose embedded key differs from the owner's still yields
`(true, nil)` when the signature verifies under the owner's key and the
content matches the local fingerprint, where the claim says such a record is
ignored. -/
theorem checkFileIntegrity_three_checks_counterexample :
    checkFileIntegrity (fun pk _ s => decide (pk = [1]) && decide (s = copyInto64 [2])) [1]
        (.ok []) (.ok ⟨"c", [[2], [9], [7]], sha256 []⟩) = .ok (true, none)
    ∧ (⟨"c", [[2], [9], [7]], sha256 []⟩ : Entry).extIDs.length ≠ 2
    ∧ (⟨"c", [[2], [9], [7]], sha256 []⟩ : Entry).extIDs.getD 1 [] ≠ [1] := by
  refine ⟨?_, by decide, by decide⟩
  simp [checkFileIntegrity, getFileHash]

/-- C4 amended: `checkFileIntegrity` performs only two of the full scan's
checks against the fetched record — the signature (first metadata field,
zero-padded/truncated to 64 bytes) must verify over the record's own content
under the owner's key, and the content must equal the local file's
fingerprint; it checks neither the metadata field count nor the embedded
public key, and it returns `(true, nil)` exactly when both checks pass. -/
theorem checkFileIntegrity_two_checks_characterization (verify : VerifyFn)
    (ownerPub fileBytes content sigField : List Nat) (cid : String)
    (restIDs : List (List Nat)) :
    checkFileIntegrity verify ownerPub (.ok fileBytes)
        (.ok ⟨cid, sigField :: restIDs, content⟩)
      = .ok (if verify ownerPub content (copyInto64 sigField) = true ∧ sha256 fileBytes = content
             then (true, none) else (false, none)) := by
  simp only [checkFileIntegrity, getFileHash, Option.getD_some]
  by_cases hv : verify ownerPub content (copyInto64 sigField) = true
  · by_cases hc : sha256 fileBytes = content
    · rw [if_neg (by simp [hv, hc]), if_pos ⟨hv, hc⟩]
    · rw [if_pos (Or.inr hc), if_neg fun h => hc h.2]
  · have hf : verify ownerPub content (copyInto64 sigField) = false :=
      Bool.eq_false_iff.mpr hv
    rw [if_pos (Or.inl hf), if_neg fun h => hv h.1]

/-- C5: A record whose embedded public key differs from the verifying
owner's is skipped by the scan of `VerifyData` — wherever it sits in the
history it leaves the result unchanged, and on its own it never produces
`true`, for every verifier (so even if its signature is valid under the key
that produced it) and even if its content equals the local fingerprint. -/
theorem VerifyData_ownership_scoping (verify : VerifyFn) (ownerPub localHash : List Nat)
    (r : Entry) (pre post : List Entry)
    (_hlen : r.extIDs.length = 2) (hpub : r.extIDs.getD 1 [] ≠ ownerPub) :
    verifyScan verify ownerPub localHash (pre ++ r :: post) =
      verifyScan verify ownerPub localHash (pre ++ post)
    ∧ verifyScan verify ownerPub localHash [r] = false := by
  have hng : ¬ goodRecord verify ownerPub localHash r := fun hg => hpub hg.2.1
  exact ⟨verifyScan_skip_middle hng pre post, verifyScan_cons_of_not_good [] hng⟩

/-- C5 witness: a concrete foreign-key record (matching content, accepting
verifier) is skipped and alone scans to `false`. -/
theorem VerifyData_ownership_scoping_witness :
    verifyScan (fun _ _ _ => true) [1] [0]
        ([] ++ (⟨"c", [[0], [2]], [0]⟩ : Entry) :: [⟨"d", [], []⟩]) =
      verifyScan (fun _ _ _ => true) [1] [0] ([] ++ [⟨"d", [], []⟩])
    ∧ verifyScan (fun _ _ _ => true) [1] [0] [⟨"c", [[0], [2]], [0]⟩] = false :=
  VerifyData_ownership_scoping (fun _ _ _ => true) [1] [0] ⟨"c", [[0], [2]], [0]⟩
    [] [⟨"d", [], []⟩] (by decide) (by decide)

/-- C6: A record whose metadata list does not have exactly two fields is
skipped silently by the full-scan verifier — the scan is a total function
that neither errors nor aborts on it, its presence leaves the result
unchanged, and a valid matching record elsewhere in the history is still
found with result `(true, nil)`. -/
theorem VerifyData_malformed_tolerance (verify : VerifyFn) (ownerPub : List Nat)
    (r : Entry) (pre post : List Entry) (fileBytes : List Nat)
    (hm : r.extIDs.length ≠ 2) :
    verifyScan verify ownerPub (sha256 fileBytes) (pre ++ r :: post) =
      verifyScan verify ownerPub (sha256 fileBytes) (pre ++ post)
    ∧ VerifyData verify ownerPub (.ok (pre ++ r :: post)) (.ok fileBytes) =
        (verifyScan verify ownerPub (sha256 fileBytes) (pre ++ post), none)
    ∧ ((∃ e ∈ post, goodRecord verify ownerPub (sha256 fileBytes) e) →
        VerifyData verify ownerPub (.ok (pre ++ r :: post)) (.ok fileBytes) = (true, none)) := by
  have hng : ¬ goodRecord verify ownerPub (sha256 fileBytes) r := fun hg => hm hg.1
  have hskip := verifyScan_skip_middle hng pre post
  refine ⟨hskip, by rw [VerifyData_ok_ok, hskip], ?_⟩
  rintro ⟨e, he, hge⟩
  rw [VerifyData_ok_ok, hskip]
  rw [Prod.mk.injEq]
  refine ⟨?_, rfl⟩
  exact (verifyScan_eq_true_iff verify ownerPub (sha256 fileBytes) (pre ++ post)).mpr
    ⟨e, List.mem_append_right pre he, hge⟩

/-- C6 witness: a concrete one-field record in front of a valid matching
record is skipped and the match is still found. -/
theorem VerifyData_malformed_tolerance_witness :
    verifyScan (fun _ _ _ => true) [1] (sha256 [])
        ([] ++ (⟨"c", [[0]], [5]⟩ : Entry) :: [⟨"d", [[0], [1]], sha256 []⟩]) =
      verifyScan (fun _ _ _ => true) [1] (sha256 []) ([] ++ [⟨"d", [[0], [1]], sha256 []⟩])
    ∧ VerifyData (fun _ _ _ => true) [1]
        (.ok ([] ++ (⟨"c", [[0]], [5]⟩ : Entry) :: [⟨"d", [[0], [1]], sha256 []⟩])) (.ok []) =
        (verifyScan (fun _ _ _ => true) [1] (sha256 []) ([] ++ [⟨"d", [[0], [1]], sha256 []⟩]),
         none)
    ∧ ((∃ e ∈ [(⟨"d", [[0], [1]], sha256 []⟩ : Entry)],
          goodRecord (fun _ _ _ => true) [1] (sha256 []) e) →
        VerifyData (fun _ _ _ => true) [1]
          (.ok ([] ++ (⟨"c", [[0]], [5]⟩ : Entry) :: [⟨"d", [[0], [1]], sha256 []⟩]))
          (.ok []) = (true, none)) :=
  VerifyData_malformed_tolerance (fun _ _ _ => true) [1] ⟨"c", [[0]], [5]⟩
    [] [⟨"d", [[0], [1]], sha256 []⟩] [] (by decide)

/-- C9: In the full-scan verifier a well-shaped record's signature field is
copied into a fixed 64-byte array — always exactly 64 bytes, truncated when
longer, zero-padded when shorter — and the record is then handled by the
ordinary signature check of the scan; no access is out of bounds. -/
theorem verifyScan_signature_padding_safe (sigSrc : List Nat) (verify : VerifyFn)
    (ownerPub localHash sigField pubField content : List Nat) (cid : String)
    (rest : List Entry) :
    (copyInto64 sigSrc).length = 64
    ∧ (64 ≤ sigSrc.length → copyInto64 sigSrc = sigSrc.take 64)
    ∧ (sigSrc.length < 64 →
        copyInto64 sigSrc = sigSrc ++ List.replicate (64 - sigSrc.length) 0)
    ∧ verifyScan verify ownerPub localHash (⟨cid, [sigField, pubField], content⟩ :: rest) =
        (if pubField = ownerPub ∧ verify ownerPub content (copyInto64 sigField) = true ∧
            content = localHash
         then true
         else verifyScan verify ownerPub localHash rest) := by
  refine ⟨copyInto64_length sigSrc, ?_, ?_, ?_⟩
  · intro h
    simp [copyInto64, Nat.sub_eq_zero_of_le h]
  · intro h
    simp [copyInto64, List.take_of_length_le (le_of_lt h)]
  · by_cases hp : pubField = ownerPub
    · by_cases hv : verify ownerPub content (copyInto64 sigField) = true
      · by_cases hc : content = localHash
        · rw [if_pos ⟨hp, hv, hc⟩]
          exact verifyScan_cons_of_good rest ⟨rfl, hp, hv, hc⟩
        · rw [if_neg fun h => hc h.2.2]
          exact verifyScan_cons_of_not_good rest fun hg => hc hg.2.2.2
      · rw [if_neg fun h => hv h.2.1]
        exact verifyScan_cons_of_not_good rest fun hg => hv hg.2.2.1
    · rw [if_neg fun h => hp h.1]
      exact verifyScan_cons_of_not_good rest fun hg => hp hg.2.1

/-- C9 witness: a 70-byte signature field is truncated to its first 64
bytes, a 1-byte field is zero-padded to 64 bytes, both at length exactly
64, and a concrete well-shaped record steps through the scan without any
out-of-bounds access. -/
theorem verifyScan_signature_padding_safe_witness :
    (copyInto64 (List.replicate 70 5)).length = 64
    ∧ copyInto64 (List.replicate 70 5) = (List.replicate 70 5).take 64
    ∧ copyInto64 [7] = [7] ++ List.replicate 63 0
    ∧ verifyScan (fun _ _ _ => true) [1] [0] (⟨"c", [[7], [1]], [0]⟩ :: []) =
        (if [1] = [1] ∧ (fun _ _ _ => true : VerifyFn) [1] [0] (copyInto64 [7]) = true ∧
            [0] = [0]
         then true
         else verifyScan (fun _ _ _ => true) [1] [0] []) :=
  ⟨(verifyScan_signature_padding_safe (List.replicate 70 5) (fun _ _ _ => true)
      [1] [0] [7] [1] [0] "c" []).1,
   (verifyScan_signature_padding_safe (List.replicate 70 5) (fun _ _ _ => true)
      [1] [0] [7] [1] [0] "c" []).2.1 (by decide),
   (verifyScan_signature_padding_safe [7] (fun _ _ _ => true)
      [1] [0] [7] [1] [0] "c" []).2.2.1 (by decide),
   (verifyScan_signature_padding_safe [7] (fun _ _ _ => true)
      [1] [0] [7] [1] [0] "c" []).2.2.2⟩

/-- C2: If a fingerprint of file X is anchored under the owner's keypair via
`secureHashOnChain` and the chain history later returned to the verifier
contains the submitted record while X is unchanged on disk, then
`VerifyData` on X returns `(true, nil)` — for every keypair whose signature
scheme satisfies the sign/verify inverse law (with 64-byte signatures, as
ed25519's are) and every file content. -/
theorem anchor_then_verify_roundtrip (verify : VerifyFn) (sign : List Nat → List Nat)
    (ownerPub fileBytes : List Nat) (cid : String) (net : NetBehavior)
    (entries : List Entry)
    (hlen : ∀ m, (sign m).length = 64)
    (hver : ∀ m, verify ownerPub m (sign m) = true)
    (hmem : (secureHashOnChain sign ownerPub cid net (sha256 fileBytes)).2 ∈ entries) :
    VerifyData verify ownerPub (.ok entries) (.ok fileBytes) = (true, none) := by
  rw [secureHashOnChain_snd] at hmem
  rw [VerifyData_ok_ok, Prod.mk.injEq]
  refine ⟨?_, rfl⟩
  refine (verifyScan_eq_true_iff verify ownerPub (sha256 fileBytes) entries).mpr
    ⟨anchorEntry sign ownerPub cid (sha256 fileBytes), hmem, rfl, rfl, ?_, rfl⟩
  show verify ownerPub (sha256 fileBytes) (copyInto64 (sign (sha256 fileBytes))) = true
  rw [copyInto64_of_length_eq (hlen (sha256 fileBytes))]
  exact hver (sha256 fileBytes)

/-- C2 witness: a concrete keypair satisfying the inverse law, anchoring the
empty file's fingerprint, then verifying the unchanged file against a
history holding exactly the submitted record. -/
theorem anchor_then_verify_roundtrip_witness :
    VerifyData (fun _ _ s => decide (s = List.replicate 64 0)) [1]
      (.ok [(secureHashOnChain (fun _ => List.replicate 64 0) [1] "c"
              ⟨.ok "t", .ok "r"⟩ (sha256 [])).2])
      (.ok []) = (true, none) :=
  anchor_then_verify_roundtrip (fun _ _ s => decide (s = List.replicate 64 0))
    (fun _ => List.replicate 64 0) [1] [] "c" ⟨.ok "t", .ok "r"⟩
    [(secureHashOnChain (fun _ => List.replicate 64 0) [1] "c"
        ⟨.ok "t", .ok "r"⟩ (sha256 [])).2]
    (fun _ => by simp) (fun _ => by simp) (List.mem_singleton_self _)

/-- C3: Registration is idempotent: when the derived chain already exists,
`Register` returns an empty transaction ID and no error leaving the ledger
untouched; on an initially-unregistered entity a successful call returns the
non-empty commit transaction ID and creates exactly one chain, and a second
call then returns an empty transaction ID with no error and creates
nothing — and both `Person.Register` and `Vehicle.Register` are this one
`registerChain` on their derived chain. -/
theorem register_idempotent (net net2 : NetBehavior) (st : ChainState)
    (cid tx rtx : String)
    (hnew : cid ∉ st.chains) (hc : net.commit = .ok tx) (htx : tx ≠ "")
    (hr : net.reveal = .ok rtx) :
    registerChain net st cid = ((tx, none), ⟨cid :: st.chains, st.createdCount + 1⟩)
    ∧ tx ≠ ""
    ∧ registerChain net2 ⟨cid :: st.chains, st.createdCount + 1⟩ cid =
        (("", none), ⟨cid :: st.chains, st.createdCount + 1⟩)
    ∧ (∀ st2 : ChainState, cid ∈ st2.chains →
        registerChain net2 st2 cid = (("", none), st2))
    ∧ (∀ p : Person, p.Register net st = registerChain net st p.chainID)
    ∧ (∀ v : Vehicle, v.Register net st = registerChain net st v.chainID) := by
  refine ⟨?_, htx, ?_, ?_, fun p => rfl, fun v => rfl⟩
  · rw [registerChain, if_neg hnew, hc, hr]
  · rw [registerChain, if_pos (List.mem_cons_self cid st.chains)]
  · intro st2 h2
    rw [registerChain, if_pos h2]

/-- C3 witness: registering chain "c" on an empty ledger yields transaction
"t" and one created chain; registering again yields an empty transaction ID,
no error and no new chain. -/
theorem register_idempotent_witness :
    registerChain ⟨.ok "t", .ok "r"⟩ ⟨[], 0⟩ "c" =
      (("t", none), ⟨["c"], 1⟩)
    ∧ ("t" : String) ≠ ""
    ∧ registerChain ⟨.ok "t", .ok "r"⟩ ⟨["c"], 1⟩ "c" = (("", none), ⟨["c"], 1⟩)
    ∧ (∀ st2 : ChainState, "c" ∈ st2.chains →
        registerChain ⟨.ok "t", .ok "r"⟩ st2 "c" = (("", none), st2))
    ∧ (∀ p : Person, p.Register ⟨.ok "t", .ok "r"⟩ ⟨[], 0⟩ =
        registerChain ⟨.ok "t", .ok "r"⟩ ⟨[], 0⟩ p.chainID)
    ∧ (∀ v : Vehicle, v.Register ⟨.ok "t", .ok "r"⟩ ⟨[], 0⟩ =
        registerChain ⟨.ok "t", .ok "r"⟩ ⟨[], 0⟩ v.chainID) :=
  register_idempotent ⟨.ok "t", .ok "r"⟩ ⟨.ok "t", .ok "r"⟩ ⟨[], 0⟩ "c" "t" "r"
    (List.not_mem_nil "c") rfl (by decide) rfl

/-- C7: For both registration and anchoring, a failure of either submission
phase is returned to the caller unmodified with an empty transaction ID and
no state change — a commit failure, and likewise a reveal failure after a
successful commit. -/
theorem submission_error_propagation (netC netR : NetBehavior) (st : ChainState)
    (cid e tx : String) (sign : List Nat → List Nat) (pubBytes hash : List Nat)
    (hnew : cid ∉ st.chains)
    (hcC : netC.commit = .error e)
    (hcR : netR.commit = .ok tx) (hrR : netR.reveal = .error e) :
    registerChain netC st cid = (("", some e), st)
    ∧ (secureHashOnChain sign pubBytes cid netC hash).1 = ("", some e)
    ∧ registerChain netR st cid = (("", some e), st)
    ∧ (secureHashOnChain sign pubBytes cid netR hash).1 = ("", some e) := by
  refine ⟨?_, ?_, ?_, ?_⟩
  · rw [registerChain, if_neg hnew, hcC]
  · rw [secureHashOnChain, hcC]
  · rw [registerChain, if_neg hnew, hcR, hrR]
  · rw [secureHashOnChain, hcR, hrR]

/-- C7 witness: a commit failure and a reveal-after-commit failure on a
concrete ledger both surface the error "boom" with an empty transaction ID
and an unchanged ledger, for registration and anchoring alike. -/
theorem submission_error_propagation_witness :
    registerChain ⟨.error "boom", .ok "r"⟩ ⟨[], 0⟩ "c" = (("", some "boom"), ⟨[], 0⟩)
    ∧ (secureHashOnChain (fun _ => []) [] "c" ⟨.error "boom", .ok "r"⟩ []).1 =
        ("", some "boom")
    ∧ registerChain ⟨.ok "t", .error "boom"⟩ ⟨[], 0⟩ "c" = (("", some "boom"), ⟨[], 0⟩)
    ∧ (secureHashOnChain (fun _ => []) [] "c" ⟨.ok "t", .error "boom"⟩ []).1 =
        ("", some "boom") :=
  submission_error_propagation ⟨.error "boom", .ok "r"⟩ ⟨.ok "t", .error "boom"⟩
    ⟨[], 0⟩ "c" "boom" "t" (fun _ => []) [] [] (List.not_mem_nil "c") rfl rfl rfl

end Blackbox
